import Mathlib

/-!
Shallow embedding of the StitchMatch stash-matching core
(`src/app.py`, endpoint `get_stash_matching_patterns` and its helpers).

Yardage values are `Float` columns in the source; they are modelled as `ℚ`.
Weight labels are free-form strings and are modelled as `String`.
Python dictionaries built by insertion (the per-weight stash totals) are
modelled as association lists that preserve first-insertion key order.
-/

/-- Whitespace characters recognised by a Python regex `\s`. -/
def isSpaceChar (c : Char) : Bool :=
  c = ' ' || c = '\t' || c = '\n' || c = '\r' || c = '\x0b' || c = '\x0c'

/-- Attempt to match the regex `\s*\(\d+\s*wpi\)` at the head of `cs`
(the pattern stripped by `normalize_weight` in `src/app.py`).  Returns the
remainder after the match, or `none`.  The greedy `\s*` and `\d+` cannot
backtrack productively here because a shorter run would leave a whitespace
(resp. digit) character where `(` (resp. `w` or whitespace) is required, so
taking maximal runs is faithful to the regex. -/
def matchWpiAt (cs : List Char) : Option (List Char) :=
  match cs.dropWhile isSpaceChar with
  | '(' :: rest2 =>
    if (rest2.takeWhile Char.isDigit).isEmpty then none
    else
      match (rest2.dropWhile Char.isDigit).dropWhile isSpaceChar with
      | 'w' :: 'p' :: 'i' :: ')' :: rest5 => some rest5
      | _ => none
  | _ => none

/-- Left-to-right scan deleting every occurrence of `\s*\(\d+\s*wpi\)`,
as `re.sub(..., '')` does.  The fuel argument only bounds the recursion;
every step consumes at least one character (a successful `matchWpiAt`
consumes at least six), so fuel equal to the length never runs out. -/
def stripWpiGo : Nat → List Char → List Char
  | _, [] => []
  | 0, cs => cs
  | Nat.succ n, c :: cs =>
    match matchWpiAt (c :: cs) with
    | some rest => stripWpiGo n rest
    | none => c :: stripWpiGo n cs

/-- Delete every `\s*\(\d+\s*wpi\)` occurrence from a character list. -/
def stripWpi (cs : List Char) : List Char := stripWpiGo cs.length cs

/-- Python `str.lower()` for the ASCII labels at hand, character by
character. -/
def lowerStr (s : String) : String := String.mk (s.data.map Char.toLower)

/-- The `normalize_weight` helper of `src/app.py` (lines 1549-1552):
lower-case, then remove the wpi parenthetical via `re.sub`. -/
def normalize_weight (s : String) : String :=
  String.mk (stripWpi (lowerStr s).data)

/-- Python substring containment `a in b` for strings. -/
def strIn (a b : String) : Bool := decide (a.data <:+: b.data)

/-- The `get_weight_mapping` table of `src/app.py` (lines 1486-1513),
as the `dict.get(key, [])` lookup function. -/
def weight_mapping (k : String) : List String :=
  if k = "lace" then ["Lace"]
  else if k = "cobweb" then ["Cobweb"]
  else if k = "thread" then ["Thread"]
  else if k = "light-fingering" then ["Light Fingering"]
  else if k = "fingering" then ["Fingering (14 wpi)", "Fingering"]
  else if k = "sport" then ["Sport (12 wpi)", "Sport"]
  else if k = "dk" then ["DK (11 wpi)", "DK"]
  else if k = "worsted" then ["Worsted (9 wpi)", "Worsted"]
  else if k = "aran" then ["Aran (8 wpi)", "Aran"]
  else if k = "bulky" then ["Bulky (7 wpi)", "Bulky"]
  else if k = "super-bulky" then ["Super Bulky (5-6 wpi)", "Super Bulky"]
  else if k = "jumbo" then ["Jumbo (0-4 wpi)", "Jumbo"]
  else if k = "Lace" then ["Lace"]
  else if k = "Cobweb" then ["Cobweb"]
  else if k = "Thread" then ["Thread"]
  else if k = "Light Fingering" then ["Light Fingering"]
  else if k = "Fingering (14 wpi)" then ["Fingering (14 wpi)", "Fingering"]
  else if k = "Sport (12 wpi)" then ["Sport (12 wpi)", "Sport"]
  else if k = "DK (11 wpi)" then ["DK (11 wpi)", "DK"]
  else if k = "Worsted (9 wpi)" then ["Worsted (9 wpi)", "Worsted"]
  else if k = "Aran (8 wpi)" then ["Aran (8 wpi)", "Aran"]
  else if k = "Bulky (7 wpi)" then ["Bulky (7 wpi)", "Bulky"]
  else if k = "Super Bulky (5-6 wpi)" then ["Super Bulky (5-6 wpi)", "Super Bulky"]
  else if k = "Jumbo (0-4 wpi)" then ["Jumbo (0-4 wpi)", "Jumbo"]
  else []

/-- One entry of the held-together table: a reachable heavier weight and a
display description. -/
structure HeldCalc where
  weight : String
  description : String
deriving DecidableEq

/-- The `get_held_yarn_calculations` table of `src/app.py` (lines 1516-1547),
as the `dict.get(key, [])` lookup function; keys are normalized stash
weights. -/
def get_held_yarn_calculations (k : String) : List HeldCalc :=
  if k = "thread" then
    [⟨"Lace", "2 strands of thread = Lace weight"⟩]
  else if k = "lace" then
    [⟨"Fingering (14 wpi)", "2 strands of lace = Fingering to Sport weight"⟩,
     ⟨"Sport (12 wpi)", "2 strands of lace = Fingering to Sport weight"⟩]
  else if k = "fingering" then
    [⟨"DK (11 wpi)", "2 strands of fingering = DK weight"⟩]
  else if k = "sport" then
    [⟨"DK (11 wpi)", "2 strands of sport = DK or Light Worsted"⟩,
     ⟨"Worsted (9 wpi)", "2 strands of sport = DK or Light Worsted"⟩]
  else if k = "dk" then
    [⟨"Worsted (9 wpi)", "2 strands of DK = Worsted or Aran"⟩,
     ⟨"Aran (8 wpi)", "2 strands of DK = Worsted or Aran"⟩]
  else if k = "worsted" then
    [⟨"Bulky (7 wpi)", "2 strands of Worsted = Chunky"⟩]
  else if k = "aran" then
    [⟨"Bulky (7 wpi)", "2 strands of Aran = Chunky to Super Bulky"⟩,
     ⟨"Super Bulky (5-6 wpi)", "2 strands of Aran = Chunky to Super Bulky"⟩]
  else if k = "bulky" then
    [⟨"Super Bulky (5-6 wpi)", "2 strands of Chunky = Super Bulky to Jumbo"⟩,
     ⟨"Jumbo (0-4 wpi)", "2 strands of Chunky = Super Bulky to Jumbo"⟩]
  else []

/-- The declared substitution table `get_compatible_weights` of `src/app.py`
(lines 1792-1814).  It is defined in the source but never called by the
stash-matching endpoint. -/
def get_compatible_weights (pattern_weight : String) : List String :=
  if pattern_weight = "light fingering" then ["fingering (14 wpi)", "fingering"]
  else if pattern_weight = "fingering (14 wpi)" then ["light fingering", "fingering"]
  else if pattern_weight = "fingering" then ["light fingering", "fingering (14 wpi)"]
  else if pattern_weight = "sport" then ["dk", "worsted (9 wpi)", "fingering (14 wpi)", "fingering"]
  else if pattern_weight = "dk" then ["sport", "worsted (9 wpi)", "worsted"]
  else if pattern_weight = "worsted (9 wpi)" then ["dk", "aran", "worsted"]
  else if pattern_weight = "worsted" then ["dk", "aran", "worsted (9 wpi)"]
  else if pattern_weight = "aran" then ["worsted (9 wpi)", "worsted", "bulky"]
  else if pattern_weight = "bulky" then ["aran", "super bulky"]
  else if pattern_weight = "super bulky" then ["bulky"]
  else []

/-- Result of `check_weight_match`: the `matches` flag (field `matched`
here, since `matches` is a Lean keyword) and the optional held-yarn
`description` key. -/
structure WeightCheck where
  matched : Bool
  description : Option String
deriving DecidableEq

/-- The `check_weight_match` helper of `src/app.py` (lines 1554-1585):
direct normalized match, the label-variant mapping in both directions,
the held-together table keyed by the normalized stash weight, and finally
substring containment in either direction. -/
def check_weight_match (stash_weight pattern_weight : String) : WeightCheck :=
  let stash_normalized := normalize_weight stash_weight
  let pattern_normalized := normalize_weight pattern_weight
  if stash_normalized = pattern_normalized then ⟨true, none⟩
  else if pattern_normalized ∈
      ((weight_mapping stash_weight ++ weight_mapping (lowerStr stash_weight)).map normalize_weight) then
    ⟨true, none⟩
  else if stash_normalized ∈
      ((weight_mapping pattern_weight ++ weight_mapping (lowerStr pattern_weight)).map normalize_weight) then
    ⟨true, none⟩
  else
    match (get_held_yarn_calculations stash_normalized).find?
        (fun c => normalize_weight c.weight = pattern_normalized) with
    | some c => ⟨true, some c.description⟩
    | none =>
      if strIn stash_normalized pattern_normalized || strIn pattern_normalized stash_normalized then
        ⟨true, none⟩
      else ⟨false, none⟩

/-- One step of building the `stash_yardage_by_weight` dictionary of
`src/app.py` (lines 1475-1481): add one `(weight, yardage)` stash row to an
association list that models the dict (first-insertion key order, values
summed on repeated keys). -/
def addEntry : List (String × ℚ) → String × ℚ → List (String × ℚ)
  | [], e => [e]
  | (k, v) :: rest, e =>
    if k = e.1 then (k, v + e.2) :: rest else (k, v) :: addEntry rest e

/-- The `stash_yardage_by_weight` dictionary: total yardage per raw weight
label, keys in first-occurrence order of the stash rows. -/
def aggregateStash (stash : List (String × ℚ)) : List (String × ℚ) :=
  stash.foldl addEntry []

/-- Dictionary lookup with default `0`: the total yardage recorded for the
raw label `k`. -/
def lookupTotal (al : List (String × ℚ)) (k : String) : ℚ :=
  match al.find? (fun e => e.1 = k) with
  | some e => e.2
  | none => 0

/-- One row of the pattern query joined with its primary yarn requirement
(`src/app.py` lines 1590-1617); only the fields the matching logic reads. -/
structure PatternRow where
  pattern_id : Nat
  required_weight : Option String
  yardage_min : Option ℚ
  yardage_max : Option ℚ
deriving DecidableEq

/-- The fields of the `PatternResponse` built for a matching pattern that
the matching logic itself determines. -/
structure MatchedPattern where
  pattern_id : Nat
  yardage_min : Option ℚ
  yardage_max : Option ℚ
  held_yarn_description : Option String
deriving DecidableEq

/-- The yardage sufficiency decision of `src/app.py` lines 1694-1709:
`none` models the `continue` taken when neither bound is present. -/
def sufficiencyMatches (ymin ymax : Option ℚ) (total : ℚ) : Option Bool :=
  match ymin, ymax with
  | some _, some mx => some (decide (total ≥ mx))
  | some mn, none => some (decide (total ≥ mn))
  | none, some mx => some (decide (total ≥ mx))
  | none, none => none

/-- The `match_description` accumulation of `src/app.py` lines 1674-1682:
starting from the empty string, every stash weight that matches with a
held-yarn description overwrites the accumulator, in stash dictionary
order. -/
def matchDescription (agg : List (String × ℚ)) (rw : String) : String :=
  agg.foldl
    (fun acc e =>
      let wc := check_weight_match e.1 rw
      if wc.matched then
        match wc.description with
        | some d => d
        | none => acc
      else acc)
    ""

/-- The held-yarn descriptions produced by the matching stash weights, in
stash dictionary order (observer used to characterise
`matchDescription`). -/
def heldDescriptions (agg : List (String × ℚ)) (rw : String) : List String :=
  agg.filterMap
    (fun e =>
      let wc := check_weight_match e.1 rw
      if wc.matched then wc.description else none)

/-- Total yardage of the stash weights that `check_weight_match` accepts
for the required weight `rw` (the `total_yardage` of `src/app.py`
line 1688). -/
def availableYardage (agg : List (String × ℚ)) (rw : String) : ℚ :=
  ((agg.filter (fun e => (check_weight_match e.1 rw).matched)).map Prod.snd).sum

/-- The per-pattern body of the matching loop of `src/app.py`
lines 1669-1728: skip when the required weight is falsy, collect matching
stash weights and the (last-written) held description, skip when no stash
weight matches or the matching yardage is zero, then apply the sufficiency
rule. -/
def processRow (agg : List (String × ℚ)) (row : PatternRow) : Option MatchedPattern :=
  match row.required_weight with
  | none => none
  | some rw =>
    if rw = "" then none
    else
      let matchingYarns := agg.filter (fun e => (check_weight_match e.1 rw).matched)
      let matchDesc := matchDescription agg rw
      if matchingYarns.isEmpty then none
      else
        let total := (matchingYarns.map Prod.snd).sum
        if total = 0 then none
        else
          match sufficiencyMatches row.yardage_min row.yardage_max total with
          | none => none
          | some b =>
            if b then
              some ⟨row.pattern_id, row.yardage_min, row.yardage_max,
                    if matchDesc = "" then none else some matchDesc⟩
            else none

/-- The `matching_patterns` list of `src/app.py` lines 1668-1728. -/
def matchingPatterns (stash : List (String × ℚ)) (catalog : List PatternRow) :
    List MatchedPattern :=
  catalog.filterMap (processRow (aggregateStash stash))

/-- The deduplication loop of `src/app.py` lines 1732-1738: keep the first
occurrence of every `pattern_id`, `seen` being the ids already kept. -/
def dedupeById (seen : List Nat) : List MatchedPattern → List MatchedPattern
  | [] => []
  | p :: rest =>
    if p.pattern_id ∈ seen then dedupeById seen rest
    else p :: dedupeById (p.pattern_id :: seen) rest

/-- The pagination block of the response (`src/app.py` lines 1753-1760). -/
structure Pagination where
  page : ℤ
  page_size : ℤ
  total : Nat
  pages : Nat
  has_next : Bool
  has_prev : Bool
deriving DecidableEq

/-- The `PaginatedPatternResponse` of the endpoint, restricted to the
fields the matching logic determines. -/
structure PaginatedPatternResponse where
  patterns : List MatchedPattern
  pagination : Pagination
deriving DecidableEq

/-- The endpoint `get_stash_matching_patterns` of `src/app.py`
(lines 1433-1761): clamp the pagination inputs, return the empty response
for an empty stash, otherwise match every catalog row against the
aggregated stash, deduplicate by pattern id, and slice
`[start_idx : start_idx + page_size]` with the ceiling-division page
count. -/
def get_stash_matching_patterns (stash : List (String × ℚ)) (catalog : List PatternRow)
    (page page_size : ℤ) : PaginatedPatternResponse :=
  let page := if page < 1 then 1 else page
  let page_size := if page_size < 1 then 30 else page_size
  let page_size := if page_size > 100000 then 100000 else page_size
  if stash.isEmpty then
    ⟨[], ⟨page, page_size, 0, 0, false, false⟩⟩
  else
    let unique := dedupeById [] (matchingPatterns stash catalog)
    let total := unique.length
    let startIdx := ((page - 1) * page_size).toNat
    let paginated := (unique.drop startIdx).take page_size.toNat
    let totalPages := (total + page_size.toNat - 1) / page_size.toNat
    ⟨paginated,
     ⟨page, page_size, total, totalPages,
      decide (page < (totalPages : ℤ)), decide (page > 1)⟩⟩

/-- The yardage sufficiency rule exactly as the specification words it
(spec section 4.4 step 4), for comparison with the code's
`sufficiencyMatches`. -/
def specSufficient (ymin ymax : Option ℚ) (avail : ℚ) : Prop :=
  match ymin, ymax with
  | some _, some mx => avail ≥ mx
  | some mn, none => avail ≥ mn
  | none, some mx => avail ≥ mx
  | none, none => False

/-- Modelled from the spec: the canonical thickness-class names of the
WeightClass enumeration (spec section 3); the code has no such table. -/
def canonicalClassNames : List String :=
  ["cobweb", "thread", "lace", "light fingering", "fingering", "sport",
   "dk", "worsted", "aran", "bulky", "super bulky", "jumbo"]

/-- Modelled from the spec: a raw label normalizes to Unknown when, after
lower-casing and stripping the wpi annotation, it matches no canonical
class name exactly and is in no substring-containment relation with any
canonical class name (spec section 4.1; the code has no Unknown class).
Both containment directions are admitted, which only shrinks the set of
Unknown labels. -/
def isUnknownLabel (s : String) : Bool :=
  let n := normalize_weight s
  !(canonicalClassNames.any (fun c => c = n || strIn c n || strIn n c))

theorem lookupTotal_nil (k : String) : lookupTotal [] k = 0 := rfl

theorem lookupTotal_cons (e : String × ℚ) (l : List (String × ℚ)) (k : String) :
    lookupTotal (e :: l) k = if e.1 = k then e.2 else lookupTotal l k := by
  unfold lookupTotal
  rw [List.find?_cons]
  by_cases h : e.1 = k <;> simp [h]

theorem lookupTotal_addEntry (e : String × ℚ) (k : String) (acc : List (String × ℚ)) :
    lookupTotal (addEntry acc e) k = lookupTotal acc k + if e.1 = k then e.2 else 0 := by
  induction acc with
  | nil =>
    by_cases h : e.1 = k <;>
      simp [addEntry, lookupTotal_cons, lookupTotal_nil, h]
  | cons hd tl ih =>
    obtain ⟨a, b⟩ := hd
    by_cases h1 : a = e.1
    · subst h1
      by_cases h2 : e.1 = k
      · simp [addEntry, lookupTotal_cons, h2]
      · simp [addEntry, lookupTotal_cons, h2]
    · by_cases h2 : a = k
      · subst h2
        have he : ¬ (e.1 = a) := fun hek => h1 hek.symm
        simp [addEntry, h1, lookupTotal_cons, he]
      · simp [addEntry, h1, lookupTotal_cons, h2, ih]

theorem lookupTotal_foldl (k : String) :
    ∀ (l acc : List (String × ℚ)),
      lookupTotal (l.foldl addEntry acc) k
        = lookupTotal acc k + ((l.filter (fun e => e.1 = k)).map Prod.snd).sum
  | [], acc => by simp
  | e :: tl, acc => by
    rw [List.foldl_cons, lookupTotal_foldl k tl, lookupTotal_addEntry]
    by_cases h : e.1 = k <;> simp [List.filter_cons, h] <;> ring

theorem lookupTotal_aggregateStash (l : List (String × ℚ)) (k : String) :
    lookupTotal (aggregateStash l) k
      = ((l.filter (fun e => e.1 = k)).map Prod.snd).sum := by
  have := lookupTotal_foldl k l []
  simpa [aggregateStash, lookupTotal_nil] using this

theorem addEntry_nonneg (x : String × ℚ) (hx : 0 ≤ x.2) :
    ∀ (acc : List (String × ℚ)), (∀ e ∈ acc, 0 ≤ e.2) →
      ∀ e ∈ addEntry acc x, 0 ≤ e.2
  | [], _, e, he => by
    simp [addEntry] at he
    simpa [he] using hx
  | (a, b) :: tl, hacc, e, he => by
    by_cases h1 : a = x.1
    · simp only [addEntry, if_pos h1] at he
      rcases List.mem_cons.mp he with h | h
      · have hb : 0 ≤ b := hacc (a, b) (List.mem_cons_self _ _)
        simpa [h] using add_nonneg hb hx
      · exact hacc e (List.mem_cons_of_mem _ h)
    · simp only [addEntry, if_neg h1] at he
      rcases List.mem_cons.mp he with h | h
      · rw [h]
        exact hacc (a, b) (List.mem_cons_self _ _)
      · exact addEntry_nonneg x hx tl
          (fun e' he' => hacc e' (List.mem_cons_of_mem _ he')) e h

theorem foldl_addEntry_nonneg :
    ∀ (l acc : List (String × ℚ)), (∀ e ∈ l, 0 ≤ e.2) → (∀ e ∈ acc, 0 ≤ e.2) →
      ∀ e ∈ l.foldl addEntry acc, 0 ≤ e.2
  | [], acc, _, hacc, e, he => hacc e he
  | x :: tl, acc, hl, hacc, e, he => by
    rw [List.foldl_cons] at he
    exact foldl_addEntry_nonneg tl (addEntry acc x)
      (fun e' he' => hl e' (List.mem_cons_of_mem _ he'))
      (addEntry_nonneg x (hl x (List.mem_cons_self _ _)) acc hacc) e he

theorem aggregateStash_nonneg (l : List (String × ℚ)) (hl : ∀ e ∈ l, 0 ≤ e.2) :
    ∀ e ∈ aggregateStash l, 0 ≤ e.2 :=
  foldl_addEntry_nonneg l [] hl (by simp)

theorem dedupeById_subset : ∀ (seen : List Nat) (l : List MatchedPattern),
    ∀ p ∈ dedupeById seen l, p ∈ l
  | _, [], p, hp => by simp [dedupeById] at hp
  | seen, q :: rest, p, hp => by
    by_cases h : q.pattern_id ∈ seen
    · simp only [dedupeById, if_pos h] at hp
      exact List.mem_cons_of_mem _ (dedupeById_subset seen rest p hp)
    · simp only [dedupeById, if_neg h] at hp
      rcases List.mem_cons.mp hp with h1 | h1
      · rw [h1]
        exact List.mem_cons_self _ _
      · exact List.mem_cons_of_mem _ (dedupeById_subset _ rest p h1)

theorem dedupeById_nodup : ∀ (seen : List Nat) (l : List MatchedPattern),
    ((dedupeById seen l).map (fun p => p.pattern_id)).Nodup
    ∧ ∀ x ∈ (dedupeById seen l).map (fun p => p.pattern_id), x ∉ seen
  | _, [] => by simp [dedupeById]
  | seen, q :: rest => by
    by_cases h : q.pattern_id ∈ seen
    · simp only [dedupeById, if_pos h]
      exact dedupeById_nodup seen rest
    · simp only [dedupeById, if_neg h, List.map_cons]
      have ih := dedupeById_nodup (q.pattern_id :: seen) rest
      refine ⟨List.nodup_cons.mpr ⟨fun hmem => (ih.2 _ hmem) (List.mem_cons_self _ _), ih.1⟩, ?_⟩
      intro x hx
      rcases List.mem_cons.mp hx with h1 | h1
      · rw [h1]
        exact h
      · exact fun hxseen => (ih.2 x h1) (List.mem_cons_of_mem _ hxseen)

theorem mem_map_dedupeById : ∀ (seen : List Nat) (l : List MatchedPattern) (x : Nat),
    x ∈ (dedupeById seen l).map (fun p => p.pattern_id)
      ↔ (x ∈ l.map (fun p => p.pattern_id) ∧ x ∉ seen)
  | _, [], x => by simp [dedupeById]
  | seen, q :: rest, x => by
    by_cases h : q.pattern_id ∈ seen
    · simp only [dedupeById, if_pos h, List.map_cons, List.mem_cons,
        mem_map_dedupeById seen rest x]
      constructor
      · rintro ⟨h1, h2⟩
        exact ⟨Or.inr h1, h2⟩
      · rintro ⟨h1 | h1, h2⟩
        · exact absurd (h1.symm ▸ h) h2
        · exact ⟨h1, h2⟩
    · simp only [dedupeById, if_neg h, List.map_cons, List.mem_cons,
        mem_map_dedupeById (q.pattern_id :: seen) rest x]
      constructor
      · rintro (h1 | ⟨h1, h2⟩)
        · exact ⟨Or.inl h1, fun hx => h (h1 ▸ hx)⟩
        · exact ⟨Or.inr h1, fun hx => h2 (Or.inr hx)⟩
      · rintro ⟨h1 | h1, h2⟩
        · exact Or.inl h1
        · by_cases hq : x = q.pattern_id
          · exact Or.inl hq
          · refine Or.inr ⟨h1, fun hx => ?_⟩
            rcases hx with h3 | h3
            · exact hq h3
            · exact h2 h3

theorem matchDescription_foldl (rw : String) :
    ∀ (agg : List (String × ℚ)) (acc : String),
      agg.foldl
        (fun acc e =>
          let wc := check_weight_match e.1 rw
          if wc.matched then
            match wc.description with
            | some d => d
            | none => acc
          else acc)
        acc
      = (heldDescriptions agg rw).getLastD acc
  | [], acc => by simp [heldDescriptions]
  | hd :: tl, acc => by
    rcases hwc : check_weight_match hd.1 rw with ⟨m, d⟩
    cases m with
    | true =>
      cases d with
      | some s =>
        have hcons : heldDescriptions (hd :: tl) rw = s :: heldDescriptions tl rw := by
          simp [heldDescriptions, List.filterMap_cons, hwc]
        rw [List.foldl_cons, hwc, matchDescription_foldl rw tl, hcons, List.getLastD_cons]
        rfl
      | none =>
        have hcons : heldDescriptions (hd :: tl) rw = heldDescriptions tl rw := by
          simp [heldDescriptions, List.filterMap_cons, hwc]
        rw [List.foldl_cons, hwc, matchDescription_foldl rw tl, hcons]
        rfl
    | false =>
      have hcons : heldDescriptions (hd :: tl) rw = heldDescriptions tl rw := by
        simp [heldDescriptions, List.filterMap_cons, hwc]
      rw [List.foldl_cons, hwc, matchDescription_foldl rw tl, hcons]
      rfl

theorem matchDescription_eq (agg : List (String × ℚ)) (rw : String) :
    matchDescription agg rw = (heldDescriptions agg rw).getLastD "" :=
  matchDescription_foldl rw agg ""

theorem processRow_none_of_no_bounds (agg : List (String × ℚ)) (row : PatternRow)
    (h1 : row.yardage_min = none) (h2 : row.yardage_max = none) :
    processRow agg row = none := by
  cases hw : row.required_weight with
  | none => simp [processRow, hw]
  | some rw => simp [processRow, hw, h1, h2, sufficiencyMatches]

theorem processRow_some_fields (agg : List (String × ℚ)) (row : PatternRow) (rw : String)
    (p : MatchedPattern) (hw : row.required_weight = some rw)
    (hp : processRow agg row = some p) :
    p.pattern_id = row.pattern_id ∧ p.yardage_min = row.yardage_min ∧
    p.yardage_max = row.yardage_max ∧
    p.held_yarn_description =
      (if matchDescription agg rw = "" then none
       else some (matchDescription agg rw)) := by
  simp only [processRow, hw] at hp
  by_cases h0 : rw = ""
  · simp [h0] at hp
  · rw [if_neg h0] at hp
    split at hp
    · cases hp
    · split at hp
      · cases hp
      · split at hp
        · cases hp
        · split at hp
          · obtain rfl := Option.some.inj hp
            exact ⟨rfl, rfl, rfl, rfl⟩
          · cases hp

theorem processRow_isSome_iff (agg : List (String × ℚ)) (row : PatternRow) (rw : String)
    (hw : row.required_weight = some rw) (h0 : rw ≠ "")
    (hA : availableYardage agg rw ≠ 0) :
    ((processRow agg row).isSome ↔
      specSufficient row.yardage_min row.yardage_max (availableYardage agg rw)) := by
  have hfil : (agg.filter (fun e => (check_weight_match e.1 rw).matched)).isEmpty = false := by
    rcases hfe : agg.filter (fun e => (check_weight_match e.1 rw).matched) with _ | ⟨x, xs⟩
    · exfalso
      apply hA
      simp [availableYardage, hfe]
    · simp [hfe]
  simp only [availableYardage] at hA ⊢
  simp only [processRow, hw, if_neg h0, hfil]
  rw [if_neg hA]
  cases hmin : row.yardage_min with
  | none =>
    cases hmax : row.yardage_max with
    | none => simp [sufficiencyMatches, specSufficient]
    | some mx =>
      by_cases hd : ((agg.filter (fun e => (check_weight_match e.1 rw).matched)).map Prod.snd).sum ≥ mx <;>
        simp [sufficiencyMatches, specSufficient, hd]
  | some mn =>
    cases hmax : row.yardage_max with
    | none =>
      by_cases hd : ((agg.filter (fun e => (check_weight_match e.1 rw).matched)).map Prod.snd).sum ≥ mn <;>
        simp [sufficiencyMatches, specSufficient, hd]
    | some mx =>
      by_cases hd : ((agg.filter (fun e => (check_weight_match e.1 rw).matched)).map Prod.snd).sum ≥ mx <;>
        simp [sufficiencyMatches, specSufficient, hd]

theorem processRow_nil (row : PatternRow) : processRow [] row = none := by
  cases hw : row.required_weight with
  | none => simp [processRow, hw]
  | some rw =>
    by_cases h0 : rw = "" <;> simp [processRow, hw, h0]

theorem matchingPatterns_nil (catalog : List PatternRow) :
    matchingPatterns [] catalog = [] := by
  induction catalog with
  | nil => rfl
  | cons row rest ih =>
    have ha : aggregateStash ([] : List (String × ℚ)) = [] := rfl
    simp only [matchingPatterns, List.filterMap_cons, ha] at ih ⊢
    rw [processRow_nil]
    exact ih

theorem patterns_sublist (stash : List (String × ℚ)) (catalog : List PatternRow)
    (pg ps : ℤ) :
    ((get_stash_matching_patterns stash catalog pg ps).patterns).Sublist
      (dedupeById [] (matchingPatterns stash catalog)) := by
  simp only [get_stash_matching_patterns]
  split
  · exact List.nil_sublist _
  · exact (List.take_sublist _ _).trans (List.drop_sublist _ _)

theorem mem_patterns_processRow (stash : List (String × ℚ)) (catalog : List PatternRow)
    (pg ps : ℤ) (p : MatchedPattern)
    (hp : p ∈ (get_stash_matching_patterns stash catalog pg ps).patterns) :
    ∃ row ∈ catalog, processRow (aggregateStash stash) row = some p := by
  have h1 : p ∈ dedupeById [] (matchingPatterns stash catalog) :=
    (patterns_sublist stash catalog pg ps).subset hp
  have h2 : p ∈ matchingPatterns stash catalog := dedupeById_subset [] _ p h1
  obtain ⟨row, hrow, hpr⟩ := List.mem_filterMap.mp h2
  exact ⟨row, hrow, hpr⟩

theorem getLastD_append_singleton {α : Type} (ds : List α) (d : α) :
    ∀ (a : α), ((ds ++ [d]).getLastD a) = d := by
  induction ds with
  | nil =>
    intro a
    rfl
  | cons x xs ih =>
    intro a
    rw [List.cons_append, List.getLastD_cons, ih]
/-- Claim C1: the yardage sufficiency decision is exactly: with both bounds
present the pattern matches iff available >= yardageMax; with only
yardageMax iff available >= yardageMax; with only yardageMin iff
available >= yardageMin (equality matches, no tolerance); with neither
bound the pattern never matches, for any stash — stated for the code's
decision step, for the whole per-pattern computation whenever the
compatible yardage is nonzero, and for the endpoint results. -/
theorem C1_sufficiency_rule :
    (∀ (ymin ymax : Option ℚ) (t : ℚ),
        sufficiencyMatches ymin ymax t = some true ↔ specSufficient ymin ymax t)
  ∧ (∀ (agg : List (String × ℚ)) (row : PatternRow) (rw : String),
        row.required_weight = some rw → rw ≠ "" →
        availableYardage agg rw ≠ 0 →
        ((processRow agg row).isSome ↔
          specSufficient row.yardage_min row.yardage_max (availableYardage agg rw)))
  ∧ (∀ (agg : List (String × ℚ)) (row : PatternRow),
        row.yardage_min = none → row.yardage_max = none → processRow agg row = none)
  ∧ (∀ (stash : List (String × ℚ)) (catalog : List PatternRow) (pg ps : ℤ)
        (p : MatchedPattern),
        p ∈ (get_stash_matching_patterns stash catalog pg ps).patterns →
        p.yardage_min ≠ none ∨ p.yardage_max ≠ none) := by
  refine ⟨?_, ?_, ?_, ?_⟩
  · intro ymin ymax t
    cases ymin <;> cases ymax <;> simp [sufficiencyMatches, specSufficient]
  · intro agg row rw hw h0 hA
    exact processRow_isSome_iff agg row rw hw h0 hA
  · intro agg row h1 h2
    exact processRow_none_of_no_bounds agg row h1 h2
  · intro stash catalog pg ps p hp
    obtain ⟨row, hrow, hpr⟩ := mem_patterns_processRow stash catalog pg ps p hp
    cases hw : row.required_weight with
    | none =>
      rw [show processRow (aggregateStash stash) row = none by simp [processRow, hw]] at hpr
      cases hpr
    | some rw =>
      obtain ⟨-, hmin, hmax, -⟩ := processRow_some_fields _ row rw p hw hpr
      by_cases h1 : row.yardage_min = none
      · by_cases h2 : row.yardage_max = none
        · rw [processRow_none_of_no_bounds _ row h1 h2] at hpr
          cases hpr
        · right
          rw [hmax]
          exact h2
      · left
        rw [hmin]
        exact h1

/-- Claim C1 witness: the sufficiency rule instantiated on a DK stash of
300 yards against a DK pattern with bounds 100 and 250, a pattern without
bounds, and a min-only result element. -/
theorem C1_sufficiency_rule_witness :
    (sufficiencyMatches (some 100) (some 250) 300 = some true
      ↔ specSufficient (some 100) (some 250) 300)
  ∧ ((processRow (aggregateStash [("DK (11 wpi)", 300)])
        ⟨1, some "DK (11 wpi)", some 100, some 250⟩).isSome
      ↔ specSufficient (some 100) (some 250)
          (availableYardage (aggregateStash [("DK (11 wpi)", 300)]) "DK (11 wpi)"))
  ∧ processRow [("DK (11 wpi)", 5)] (⟨2, some "DK (11 wpi)", none, none⟩ : PatternRow) = none
  ∧ ((some (100 : ℚ) : Option ℚ) ≠ none ∨ (none : Option ℚ) ≠ none) := by
  refine ⟨C1_sufficiency_rule.1 (some 100) (some 250) 300, ?_,
    C1_sufficiency_rule.2.2.1 [("DK (11 wpi)", 5)] ⟨2, some "DK (11 wpi)", none, none⟩ rfl rfl, ?_⟩
  · exact C1_sufficiency_rule.2.1 (aggregateStash [("DK (11 wpi)", 300)])
      ⟨1, some "DK (11 wpi)", some 100, some 250⟩ "DK (11 wpi)" rfl (by decide)
      (by with_unfolding_all decide)
  · exact C1_sufficiency_rule.2.2.2 [("DK (11 wpi)", 300)]
      [⟨3, some "DK (11 wpi)", some 100, none⟩] 1 30 ⟨3, some 100, none, none⟩
      (by with_unfolding_all decide)

/-- Claim C5: in the returned result list pattern identities are pairwise
distinct, and a pattern matched through several stash classes or rows
appears in the deduplicated list exactly as often as it appears at all,
namely once. -/
theorem C5_result_ids_distinct :
    ∀ (stash : List (String × ℚ)) (catalog : List PatternRow) (pg ps : ℤ),
    (((get_stash_matching_patterns stash catalog pg ps).patterns.map
        (fun p => p.pattern_id)).Nodup)
    ∧ ∀ x : Nat,
        x ∈ (matchingPatterns stash catalog).map (fun p => p.pattern_id)
          ↔ x ∈ (dedupeById [] (matchingPatterns stash catalog)).map (fun p => p.pattern_id) := by
  intro stash catalog pg ps
  constructor
  · exact List.Nodup.sublist ((patterns_sublist stash catalog pg ps).map _)
      (dedupeById_nodup [] _).1
  · intro x
    rw [mem_map_dedupeById]
    simp

/-- Claim C6: with exactly 25 matched patterns, page 2 of size 10 returns
matched items 11 through 20, and the totals reflect the matched-set size:
total 25, pages 3, has_next and has_prev both true. -/
theorem C6_pagination_page2 :
    ∀ (stash : List (String × ℚ)) (catalog : List PatternRow),
    (dedupeById [] (matchingPatterns stash catalog)).length = 25 →
    (get_stash_matching_patterns stash catalog 2 10).patterns
        = ((dedupeById [] (matchingPatterns stash catalog)).drop 10).take 10
    ∧ (get_stash_matching_patterns stash catalog 2 10).pagination.total = 25
    ∧ (get_stash_matching_patterns stash catalog 2 10).pagination.pages = 3
    ∧ (get_stash_matching_patterns stash catalog 2 10).pagination.has_next = true
    ∧ (get_stash_matching_patterns stash catalog 2 10).pagination.has_prev = true := by
  intro stash catalog h
  have hs : stash.isEmpty = false := by
    cases stash with
    | nil =>
      rw [matchingPatterns_nil] at h
      simp [dedupeById] at h
    | cons a l => rfl
  simp only [get_stash_matching_patterns, hs]
  norm_num [h, show Int.toNat 10 = 10 from rfl]

/-- Claim C6 witness: a 25-pattern DK catalog against a 1000-yard DK
stash, paginated at page 2 with page size 10. -/
theorem C6_pagination_page2_witness :
    (get_stash_matching_patterns [("DK (11 wpi)", 1000)]
        ((List.range 25).map (fun i => ⟨i, some "DK (11 wpi)", none, some 10⟩)) 2 10).patterns
        = ((dedupeById [] (matchingPatterns [("DK (11 wpi)", 1000)]
            ((List.range 25).map (fun i => ⟨i, some "DK (11 wpi)", none, some 10⟩)))).drop 10).take 10
    ∧ (get_stash_matching_patterns [("DK (11 wpi)", 1000)]
        ((List.range 25).map (fun i => ⟨i, some "DK (11 wpi)", none, some 10⟩)) 2 10).pagination.total = 25
    ∧ (get_stash_matching_patterns [("DK (11 wpi)", 1000)]
        ((List.range 25).map (fun i => ⟨i, some "DK (11 wpi)", none, some 10⟩)) 2 10).pagination.pages = 3
    ∧ (get_stash_matching_patterns [("DK (11 wpi)", 1000)]
        ((List.range 25).map (fun i => ⟨i, some "DK (11 wpi)", none, some 10⟩)) 2 10).pagination.has_next = true
    ∧ (get_stash_matching_patterns [("DK (11 wpi)", 1000)]
        ((List.range 25).map (fun i => ⟨i, some "DK (11 wpi)", none, some 10⟩)) 2 10).pagination.has_prev = true :=
  C6_pagination_page2 [("DK (11 wpi)", 1000)]
    ((List.range 25).map (fun i => ⟨i, some "DK (11 wpi)", none, some 10⟩))
    (by with_unfolding_all decide)

/-- Claim C10: every pattern the matcher accepts has strictly positive
available compatible yardage, given that stash yardages are nonnegative;
in particular a pattern whose compatible classes sum to exactly zero is
excluded even when its only bound is a yardageMin of zero. -/
theorem C10_positive_available :
    ∀ (stash : List (String × ℚ)) (row : PatternRow) (rw : String) (p : MatchedPattern),
    (∀ e ∈ stash, 0 ≤ e.2) →
    row.required_weight = some rw →
    processRow (aggregateStash stash) row = some p →
    0 < availableYardage (aggregateStash stash) rw := by
  intro stash row rw p hnn hw hp
  have h0 : 0 ≤ availableYardage (aggregateStash stash) rw := by
    apply List.sum_nonneg
    intro x hx
    obtain ⟨e, he, rfl⟩ := List.mem_map.mp hx
    exact aggregateStash_nonneg stash hnn e (List.mem_filter.mp he).1
  rcases lt_or_eq_of_le h0 with h | h
  · exact h
  · exfalso
    have hA : (((aggregateStash stash).filter
        (fun e => (check_weight_match e.1 rw).matched)).map Prod.snd).sum = 0 := by
      simpa [availableYardage] using h.symm
    have hnone : processRow (aggregateStash stash) row = none := by
      simp only [processRow, hw]
      by_cases h0' : rw = ""
      · simp [h0']
      · rw [if_neg h0']
        split
        · rfl
        · rfl
    rw [hnone] at hp
    cases hp

/-- Claim C10 witness: a 100-yard DK stash accepted for a DK pattern whose
only bound is a yardageMin of zero has positive available yardage. -/
theorem C10_positive_available_witness :
    0 < availableYardage (aggregateStash [("DK (11 wpi)", 100)]) "DK (11 wpi)" :=
  C10_positive_available [("DK (11 wpi)", 100)] ⟨1, some "DK (11 wpi)", some 0, none⟩
    "DK (11 wpi)" ⟨1, some 0, none, none⟩ (by with_unfolding_all decide) rfl
    (by with_unfolding_all decide)

/-- Claim C2 counterexample: a 1000-yard Worsted stash does not satisfy a
DK pattern needing only 100 yards, so Worsted is not among the stash
classes accepted for a DK requirement — the claimed superset
containing Worsted fails on the code. -/
theorem C2_counterexample :
    (get_stash_matching_patterns [("Worsted (9 wpi)", 1000)]
        [⟨1, some "DK (11 wpi)", none, some 100⟩] 1 30).patterns = [] := by
  with_unfolding_all decide

/-- Claim C2 amended: the stash classes accepted for a DK-requiring
pattern include DK itself, Sport and Fingering (both via held-together
edges) but exclude Worsted; the declared substitution table, which does
list dk as a substitute reachable from worsted, is never consulted by the
matcher. -/
theorem C2_accepted_sources_amended :
    (check_weight_match "DK (11 wpi)" "DK (11 wpi)").matched = true
  ∧ (check_weight_match "DK" "DK (11 wpi)").matched = true
  ∧ (check_weight_match "Sport (12 wpi)" "DK (11 wpi)").matched = true
  ∧ (check_weight_match "Sport" "DK (11 wpi)").matched = true
  ∧ (check_weight_match "Fingering (14 wpi)" "DK (11 wpi)").matched = true
  ∧ (check_weight_match "Worsted (9 wpi)" "DK (11 wpi)").matched = false
  ∧ (check_weight_match "Worsted" "DK (11 wpi)").matched = false
  ∧ "dk" ∈ get_compatible_weights "worsted (9 wpi)" := by
  with_unfolding_all decide

/-- Claim C3 counterexample: for the stash of 500 Worsted yards and the
Aran pattern with yardageMax 400 the endpoint returns no patterns at all,
against the claim that the pattern is included. -/
theorem C3_counterexample :
    ¬ ((7 : Nat) ∈ (get_stash_matching_patterns [("Worsted (9 wpi)", 500)]
        [⟨7, some "Aran (8 wpi)", none, some 400⟩] 1 30).patterns.map
          (fun p => p.pattern_id)) := by
  with_unfolding_all decide

/-- Claim C3 amended: the pattern is not included, because the matcher has
no substitution path: Worsted against Aran fails every branch of
check_weight_match (its only held-together target is Bulky), even though
the unused declared substitution table does list worsted as a substitute
for aran. -/
theorem C3_no_substitution_path :
    (get_stash_matching_patterns [("Worsted (9 wpi)", 500)]
        [⟨7, some "Aran (8 wpi)", none, some 400⟩] 1 30).patterns = []
  ∧ (check_weight_match "Worsted (9 wpi)" "Aran (8 wpi)").matched = false
  ∧ check_weight_match "Worsted (9 wpi)" "Bulky (7 wpi)"
      = ⟨true, some "2 strands of Worsted = Chunky"⟩
  ∧ "worsted (9 wpi)" ∈ get_compatible_weights "aran" := by
  with_unfolding_all decide

/-- Claim C4 counterexample: the label mystery yarn normalizes to Unknown
under the specified normalizer, yet a pattern requiring it is returned
when the stash holds the same unrecognized label — Unknown labels do
participate in matching. -/
theorem C4_counterexample :
    isUnknownLabel "mystery yarn" = true
  ∧ ((get_stash_matching_patterns [("mystery yarn", 100)]
        [⟨9, some "mystery yarn", none, some 100⟩] 1 30).patterns.map
          (fun p => p.pattern_id)) = [9] := by
  with_unfolding_all decide

/-- Claim C4 amended: the code has no Unknown class; the only exclusion is
of patterns whose required weight is missing or the empty string, and
unrecognized labels still match by direct equality or substring
containment. -/
theorem C4_falsy_weight_excluded :
    ∀ (agg : List (String × ℚ)) (row : PatternRow),
    row.required_weight = none ∨ row.required_weight = some "" →
    processRow agg row = none := by
  intro agg row h
  rcases h with h | h <;> simp [processRow, h]

/-- Claim C4 witness: a row without any weight and a row with an empty
weight label are both excluded. -/
theorem C4_falsy_weight_excluded_witness :
    processRow [] (⟨1, none, none, none⟩ : PatternRow) = none
  ∧ processRow [("DK (11 wpi)", 5)] (⟨2, some "", some 10, some 20⟩ : PatternRow) = none :=
  ⟨C4_falsy_weight_excluded [] ⟨1, none, none, none⟩ (Or.inl rfl),
   C4_falsy_weight_excluded [("DK (11 wpi)", 5)] ⟨2, some "", some 10, some 20⟩ (Or.inr rfl)⟩

/-- Claim C7 counterexample: a stash whose only class is Fingering does
satisfy a pattern requiring Light Fingering — the pattern is returned. -/
theorem C7_counterexample :
    ((get_stash_matching_patterns [("Fingering (14 wpi)", 500)]
        [⟨3, some "Light Fingering", none, some 400⟩] 1 30).patterns.map
          (fun p => p.pattern_id)) = [3] := by
  with_unfolding_all decide

/-- Claim C7 amended: normalization only lower-cases and strips the wpi
annotation, keeping light fingering distinct from fingering, but the
substring fallback of check_weight_match connects the two classes in both
directions, and the declared (unused) substitution table also lists
fingering as a substitute for light fingering. -/
theorem C7_substring_fallback_amended :
    normalize_weight "Light Fingering" = "light fingering"
  ∧ normalize_weight "Light Fingering" ≠ normalize_weight "Fingering (14 wpi)"
  ∧ (check_weight_match "Fingering (14 wpi)" "Light Fingering").matched = true
  ∧ (check_weight_match "Light Fingering" "Fingering (14 wpi)").matched = true
  ∧ strIn (normalize_weight "Fingering (14 wpi)") (normalize_weight "Light Fingering") = true
  ∧ "fingering" ∈ get_compatible_weights "light fingering" := by
  with_unfolding_all decide

/-- Claim C8 counterexample: with Fingering and Sport both reaching DK via
held-together edges, the description attached depends on the stash
iteration order — each order yields the description of its last matching
class, not the first edge in declaration order. -/
theorem C8_counterexample :
    ((get_stash_matching_patterns [("Fingering (14 wpi)", 100), ("Sport (12 wpi)", 100)]
        [⟨4, some "DK (11 wpi)", none, some 200⟩] 1 30).patterns.map
          (fun p => p.held_yarn_description))
      = [some "2 strands of sport = DK or Light Worsted"]
  ∧ ((get_stash_matching_patterns [("Sport (12 wpi)", 100), ("Fingering (14 wpi)", 100)]
        [⟨4, some "DK (11 wpi)", none, some 200⟩] 1 30).patterns.map
          (fun p => p.held_yarn_description))
      = [some "2 strands of fingering = DK weight"]
  ∧ get_held_yarn_calculations "fingering"
      = [⟨"DK (11 wpi)", "2 strands of fingering = DK weight"⟩]
  ∧ ("2 strands of sport = DK or Light Worsted" : String)
      ≠ "2 strands of fingering = DK weight" := by
  with_unfolding_all decide

/-- Claim C8 amended: when a held-together source contributes, the result
carries a held description, but it is the description of the last
matching stash class in stash dictionary order (within one class, the
first declared edge) that wins. -/
theorem C8_description_last_wins :
    (∀ (agg : List (String × ℚ)) (rw : String),
        matchDescription agg rw = (heldDescriptions agg rw).getLastD "")
  ∧ (∀ (agg : List (String × ℚ)) (rw : String) (ds : List String) (d : String),
        heldDescriptions agg rw = ds ++ [d] → matchDescription agg rw = d)
  ∧ (∀ (agg : List (String × ℚ)) (row : PatternRow) (rw : String) (p : MatchedPattern),
        row.required_weight = some rw → processRow agg row = some p →
        p.held_yarn_description =
          (if matchDescription agg rw = "" then none
           else some (matchDescription agg rw))) := by
  refine ⟨matchDescription_eq, ?_, ?_⟩
  · intro agg rw ds d hd
    rw [matchDescription_eq, hd, getLastD_append_singleton]
  · intro agg row rw p hw hp
    exact (processRow_some_fields agg row rw p hw hp).2.2.2

/-- Claim C8 witness: the Fingering-then-Sport stash against a DK pattern:
the attached description is the last one, namely the sport edge. -/
theorem C8_description_last_wins_witness :
    matchDescription (aggregateStash [("Fingering (14 wpi)", 100), ("Sport (12 wpi)", 100)])
        "DK (11 wpi)"
      = (heldDescriptions (aggregateStash [("Fingering (14 wpi)", 100), ("Sport (12 wpi)", 100)])
          "DK (11 wpi)").getLastD ""
  ∧ matchDescription (aggregateStash [("Fingering (14 wpi)", 100), ("Sport (12 wpi)", 100)])
        "DK (11 wpi)"
      = "2 strands of sport = DK or Light Worsted"
  ∧ (⟨4, none, some 200, some "2 strands of sport = DK or Light Worsted"⟩
        : MatchedPattern).held_yarn_description
      = (if matchDescription (aggregateStash [("Fingering (14 wpi)", 100), ("Sport (12 wpi)", 100)])
            "DK (11 wpi)" = "" then none
         else some (matchDescription
            (aggregateStash [("Fingering (14 wpi)", 100), ("Sport (12 wpi)", 100)])
            "DK (11 wpi)")) := by
  refine ⟨C8_description_last_wins.1 _ "DK (11 wpi)", ?_, ?_⟩
  · exact C8_description_last_wins.2.1 _ "DK (11 wpi)"
      ["2 strands of fingering = DK weight"] "2 strands of sport = DK or Light Worsted"
      (by with_unfolding_all decide)
  · exact C8_description_last_wins.2.2 _ (⟨4, some "DK (11 wpi)", none, some 200⟩ : PatternRow)
      "DK (11 wpi)" ⟨4, none, some 200, some "2 strands of sport = DK or Light Worsted"⟩
      rfl (by with_unfolding_all decide)

/-- Claim C9 counterexample: two stash rows whose labels normalize to the
same class but differ as raw strings are kept under separate keys: no
aggregated total equals the sum over all entries normalizing to the
class. -/
theorem C9_counterexample :
    normalize_weight "Worsted (9 wpi)" = normalize_weight "Worsted"
  ∧ aggregateStash [("Worsted (9 wpi)", 100), ("Worsted", 50)]
      = [("Worsted (9 wpi)", 100), ("Worsted", 50)]
  ∧ lookupTotal (aggregateStash [("Worsted (9 wpi)", 100), ("Worsted", 50)]) "Worsted (9 wpi)"
      = 100
  ∧ (([("Worsted (9 wpi)", (100 : ℚ)), ("Worsted", 50)].filter
        (fun e => normalize_weight e.1 = normalize_weight "Worsted (9 wpi)")).map Prod.snd).sum
      = 150
  ∧ (100 : ℚ) ≠ 150 := by
  with_unfolding_all decide

/-- Claim C9 amended: aggregation groups by raw label, not by normalized
class; each raw-label total is the sum of the yardage of the entries
bearing exactly that label, and these totals are invariant under
permutation of the stash list. -/
theorem C9_aggregation_amended :
    (∀ (l1 l2 : List (String × ℚ)), l1.Perm l2 →
        ∀ k, lookupTotal (aggregateStash l1) k = lookupTotal (aggregateStash l2) k)
  ∧ (∀ (l : List (String × ℚ)) (k : String),
        lookupTotal (aggregateStash l) k
          = ((l.filter (fun e => e.1 = k)).map Prod.snd).sum) := by
  constructor
  · intro l1 l2 hperm k
    rw [lookupTotal_aggregateStash, lookupTotal_aggregateStash]
    exact ((hperm.filter _).map _).sum_eq
  · exact lookupTotal_aggregateStash

/-- Claim C9 witness: the two Worsted rows in either order give the same
per-label totals, each equal to the filtered sum. -/
theorem C9_aggregation_amended_witness :
    lookupTotal (aggregateStash [("Worsted (9 wpi)", 100), ("Worsted", 50)]) "Worsted"
      = lookupTotal (aggregateStash [("Worsted", 50), ("Worsted (9 wpi)", 100)]) "Worsted"
  ∧ lookupTotal (aggregateStash [("Worsted (9 wpi)", 100), ("Worsted", 50)]) "Worsted"
      = (([("Worsted (9 wpi)", (100 : ℚ)), ("Worsted", 50)].filter
          (fun e => e.1 = "Worsted")).map Prod.snd).sum :=
  ⟨C9_aggregation_amended.1 [("Worsted (9 wpi)", 100), ("Worsted", 50)]
      [("Worsted", 50), ("Worsted (9 wpi)", 100)] (by with_unfolding_all decide) "Worsted",
   C9_aggregation_amended.2 [("Worsted (9 wpi)", 100), ("Worsted", 50)] "Worsted"⟩
